import Mathlib

/-!
Verification of the Recognition Provider Orchestration Layer of the
latex-handwriting-converter repository.

The embedding translates:
* `RecognitionResult` and the provider interface from
  `src/frontend/src/modules/recognition/types.ts`;
* the registry and orchestrator from
  `src/frontend/src/modules/recognition/RecognitionServiceImpl.ts`
  (a JS `Map` keyed by provider id, and the `recognizeMath` /
  `recognizeText` methods, which are textually identical up to the
  provider method they invoke — embedded once as `recognizeWith` over the
  kind-specific method, instrumented with a trace of which providers were
  probed and invoked);
* the Seshat and MathPix adapters from
  `src/frontend/src/modules/recognition/adapters/SeshatProvider.ts`
  (external effects — WASM initialization, the backend HTTP API, the
  MathPix HTTP API, blob reads — are passed in as explicit outcome
  parameters);
* the payload normalizer `preprocessImage` from the same file, with the
  browser's `atob` builtin modelled as standard base64 decoding.

JS exceptions are modelled by `Outcome`; an absent (`undefined`) field by
`Option`. `rawData` (opaque diagnostics, never interpreted) is not modelled.
-/

namespace Recognition

/-- A JS async call either resolves with a value or rejects; a rejection is
recorded by the message string the catching code extracts
(`error instanceof Error ? error.message : String(error)`). -/
inductive Outcome (α : Type) where
  | ok (a : α)
  | exn (msg : String)
deriving DecidableEq

/-- `RecognitionResult` from `types.ts`: `success` required, `latex` / `text` /
`error` / `fallbackProvider` optional, `confidence` a required number
(modelled as `Rat`; the code only uses the literals 0, 0.5, 0.7, 0.8, 0.9). -/
structure RecognitionResult where
  success : Bool
  latex : Option String := none
  text : Option String := none
  confidence : Rat := 0
  error : Option String := none
  fallbackProvider : Option String := none
deriving DecidableEq

/-- The `string | Blob` image payload accepted by every recognition entry
point: either a string (base64 or data URI) or binary blob bytes. -/
inductive ImageInput where
  | str (s : String)
  | blob (bytes : List Nat)
deriving DecidableEq

/-- A registered provider, as the orchestrator sees it for one request:
identity plus the outcomes of the (at most one) `isAvailable`,
`recognizeMath` and `recognizeText` calls the orchestrator may issue to it,
the latter two as functions of the payload. -/
structure Provider where
  id : String
  name : String
  requiresCredentials : Bool := false
  availability : Outcome Bool
  mathResult : ImageInput → Outcome RecognitionResult
  textResult : ImageInput → Outcome RecognitionResult

/-! ### Registry (`providers: Map<string, RecognitionProvider>`)

A JS `Map` is insertion-ordered; `set` on a present key replaces the value
in place, otherwise appends; `delete` removes; `values()` iterates in
order. The state is the ordered list of entries. -/

/-- `registerProvider`: `this.providers.set(provider.id, provider)`. -/
def registerProvider (s : List Provider) (p : Provider) : List Provider :=
  if s.any (fun q => q.id == p.id) then
    s.map (fun q => if q.id == p.id then p else q)
  else s ++ [p]

/-- `unregisterProvider`: `this.providers.delete(providerId)`. -/
def unregisterProvider (s : List Provider) (pid : String) : List Provider :=
  s.filter (fun q => q.id != pid)

/-- `getProvider`: `this.providers.get(providerId)`. -/
def getProvider (s : List Provider) (pid : String) : Option Provider :=
  s.find? (fun q => q.id == pid)

/-- `getAllProviders`: `Array.from(this.providers.values())`. -/
def getAllProviders (s : List Provider) : List Provider := s

/-! ### Orchestrator (`recognizeMath` / `recognizeText`) -/

/-- The availability filter of the implicit-selection path: a provider is a
candidate iff its `isAvailable()` resolves `true`; a rejection is caught,
logged and treated as not available. -/
def isAvailableOk (p : Provider) : Bool :=
  match p.availability with
  | .ok true => true
  | _ => false

/-- The failure shape `{success:false, confidence:0, error:msg}` the
orchestrator constructs at each of its own failure sites. -/
def failureResult (msg : String) : RecognitionResult :=
  { success := false, confidence := 0, error := some msg }

/-- Message of the `ProviderNotFound` failure:
`Provider with id ${providerId} not found`. -/
def providerNotFoundMsg (pid : String) : String :=
  "Provider with id " ++ pid ++ " not found"

/-- Message of the `ProviderUnavailable` failure:
`Provider ${provider.name} is not available`. -/
def providerUnavailableMsg (n : String) : String :=
  "Provider " ++ n ++ " is not available"

/-- `lastError || 'Recognition failed with all available providers'`:
JS `||` falls back when `lastError` is `undefined` or the empty string. -/
def orDefaultError : Option String → String
  | some e =>
    if e = "" then "Recognition failed with all available providers" else e
  | none => "Recognition failed with all available providers"

/-- The fallback loop over the available candidates, threading `lastError`.
`recOf p` is the kind-specific call on `p`. Returns the final result and the
ids of the candidates whose recognition method was invoked, in order. -/
def tryProviders (recOf : Provider → Outcome RecognitionResult) :
    List Provider → Option String → RecognitionResult × List String
  | [], lastError => (failureResult (orDefaultError lastError), [])
  | p :: rest, _lastError =>
    match recOf p with
    | .ok r =>
      if r.success then (r, [p.id])
      else
        let next := tryProviders recOf rest r.error
        (next.1, p.id :: next.2)
    | .exn m =>
      let next := tryProviders recOf rest (some m)
      (next.1, p.id :: next.2)

/-- Which providers had `isAvailable` called (`probed`) and which had the
kind-specific recognition method called (`invoked`), in call order. -/
structure Trace where
  probed : List String
  invoked : List String
deriving DecidableEq

/-- Common body of `recognizeMath` and `recognizeText` (the two methods are
identical up to the provider method invoked, supplied as `recOf`).
Explicit path: missing provider and unavailable provider raise errors that
the method's outer catch converts to `{success:false, confidence:0, error}`;
otherwise the one provider's result (or caught exception) is returned.
Implicit path: probe all providers, filter to the available ones, then run
the fallback loop. -/
def recognizeWith (recOf : Provider → Outcome RecognitionResult)
    (s : List Provider) (providerId : Option String) :
    RecognitionResult × Trace :=
  match providerId with
  | some pid =>
    match getProvider s pid with
    | none => (failureResult (providerNotFoundMsg pid), ⟨[], []⟩)
    | some p =>
      match p.availability with
      | .exn m => (failureResult m, ⟨[pid], []⟩)
      | .ok false => (failureResult (providerUnavailableMsg p.name), ⟨[pid], []⟩)
      | .ok true =>
        match recOf p with
        | .ok r => (r, ⟨[pid], [pid]⟩)
        | .exn m => (failureResult m, ⟨[pid], [pid]⟩)
  | none =>
    let available := s.filter isAvailableOk
    if available.isEmpty then
      (failureResult "No available recognition providers",
       ⟨s.map (fun p => p.id), []⟩)
    else
      let out := tryProviders recOf available none
      (out.1, ⟨s.map (fun p => p.id), out.2⟩)

/-- `recognizeMath(imageData, providerId?)`. -/
def recognizeMathService (s : List Provider) (img : ImageInput)
    (providerId : Option String) : RecognitionResult × Trace :=
  recognizeWith (fun p => p.mathResult img) s providerId

/-- `recognizeText(imageData, providerId?)`. -/
def recognizeTextService (s : List Provider) (img : ImageInput)
    (providerId : Option String) : RecognitionResult × Trace :=
  recognizeWith (fun p => p.textResult img) s providerId

/-- A candidate's attempt counts as failed when its call resolves to a
Result with `success=false` or rejects. -/
def attemptFailsB (o : Outcome RecognitionResult) : Bool :=
  match o with
  | .ok r => !r.success
  | .exn _ => true

/-- The value `lastError` holds after the loop has run through `l`
(starting from `acc`): each candidate overwrites it with its Result's
`error` field (possibly absent) or its exception message. -/
def lastErrorOf (recOf : Provider → Outcome RecognitionResult) :
    List Provider → Option String → Option String
  | [], acc => acc
  | p :: rest, _acc =>
    lastErrorOf recOf rest
      (match recOf p with
       | .ok r => r.error
       | .exn m => some m)

/-- The candidate ids the fallback loop invokes: every candidate up to and
including the first successful one. -/
def attemptedIds (recOf : Provider → Outcome RecognitionResult) :
    List Provider → List String
  | [] => []
  | p :: rest =>
    match recOf p with
    | .ok r => if r.success then [p.id] else p.id :: attemptedIds recOf rest
    | .exn _ => p.id :: attemptedIds recOf rest

/-! ### Payload normalizer (`SeshatProvider.preprocessImage`)

The browser builtin `atob` is modelled as standard base64 decoding over the
standard alphabet with `=` padding, and `btoa` of a byte string as the
corresponding encoding (used only to state the spec's round-trip
property). -/

/-- Value of a base64 alphabet character (`A-Z a-z 0-9 + /`). -/
def b64Val (c : Char) : Option Nat :=
  let n := c.toNat
  if 65 ≤ n ∧ n ≤ 90 then some (n - 65)
  else if 97 ≤ n ∧ n ≤ 122 then some (n - 97 + 26)
  else if 48 ≤ n ∧ n ≤ 57 then some (n - 48 + 52)
  else if n = 43 then some 62
  else if n = 47 then some 63
  else none

/-- Base64 alphabet character of a 6-bit value. -/
def b64Chr (v : Nat) : Char :=
  if v < 26 then Char.ofNat (65 + v)
  else if v < 52 then Char.ofNat (97 + (v - 26))
  else if v < 62 then Char.ofNat (48 + (v - 52))
  else if v = 62 then Char.ofNat 43
  else Char.ofNat 47

/-- `atob`: decode a base64 string (as a character list) to its bytes;
`none` models the `InvalidCharacterError` the builtin throws on malformed
input. Padding `=` is accepted only at the end of the final group. -/
def decodeB64 : List Char → Option (List Nat)
  | [] => some []
  | c1 :: c2 :: c3 :: c4 :: rest =>
    match b64Val c1, b64Val c2 with
    | some v1, some v2 =>
      if c3 = '=' then
        if c4 = '=' ∧ rest = [] then some [v1 * 4 + v2 / 16] else none
      else
        match b64Val c3 with
        | some v3 =>
          if c4 = '=' then
            if rest = [] then
              some [v1 * 4 + v2 / 16, v2 % 16 * 16 + v3 / 4]
            else none
          else
            match b64Val c4, decodeB64 rest with
            | some v4, some tail =>
              some ((v1 * 4 + v2 / 16) :: (v2 % 16 * 16 + v3 / 4) ::
                    (v3 % 4 * 64 + v4) :: tail)
            | _, _ => none
        | none => none
    | _, _ => none
  | _ => none

/-- Standard base64 encoding of a byte list (the `btoa` direction, used to
state the round-trip property of the normalizer). -/
def encodeB64 : List Nat → List Char
  | [] => []
  | [b1] => [b64Chr (b1 / 4), b64Chr (b1 % 4 * 16), '=', '=']
  | [b1, b2] =>
    [b64Chr (b1 / 4), b64Chr (b1 % 4 * 16 + b2 / 16), b64Chr (b2 % 16 * 4), '=']
  | b1 :: b2 :: b3 :: rest =>
    b64Chr (b1 / 4) :: b64Chr (b1 % 4 * 16 + b2 / 16) ::
    b64Chr (b2 % 16 * 4 + b3 / 64) :: b64Chr (b3 % 64) :: encodeB64 rest

/-- `String.prototype.split(',')` over the character list: split into the
(possibly empty) groups between commas. -/
def splitOnComma : List Char → List (List Char)
  | [] => [[]]
  | c :: rest =>
    if c = ',' then [] :: splitOnComma rest
    else
      match splitOnComma rest with
      | [] => [[c]]
      | g :: gs => (c :: g) :: gs

/-- `imageData.startsWith('data:')` over the character list. -/
def startsWithData (cs : List Char) : Bool :=
  cs.take 5 == ['d', 'a', 't', 'a', ':']

/-- `preprocessImage(imageData)`: a string starting with `data:` has
everything up to the first comma stripped (`imageData.split(',')[1]`) and
the remainder base64-decoded; any other string is base64-decoded directly;
a blob's bytes pass through unchanged (`new Uint8Array(arrayBuffer)`).
Strings are handled as their character lists. -/
def preprocessImage : ImageInput → Option (List Nat)
  | ImageInput.str s =>
    if startsWithData s.toList then
      match splitOnComma s.toList with
      | _ :: b64 :: _ => decodeB64 b64
      | _ => none
    else decodeB64 s.toList
  | ImageInput.blob bs => some bs

/-! ### Adapters (`SeshatProvider`, `MathPixProvider`)

Each adapter method is a function of the outcomes of the external calls it
makes during the request. -/

/-- JS falsiness of an optional string field (`!s` is true for `undefined`
and for the empty string). -/
def jsStrFalsy : Option String → Bool
  | none => true
  | some s => s = ""

/-- `c || d` for an optional numeric field: `undefined` and `0` are falsy. -/
def jsNumOr (c : Option Rat) (d : Rat) : Rat :=
  match c with
  | some x => if x = 0 then d else x
  | none => d

/-- Outcome of the Seshat adapter's backend-API fallback call
(`fetch('/api/recognition/...')`): network/parse rejection, a non-2xx
response, or a parsed Result body. -/
inductive ApiOutcome where
  | exn (msg : String)
  | httpError (status : Nat)
  | ok (r : RecognitionResult)
deriving DecidableEq

/-- Value returned by the Seshat WASM engine's `recognizeExpression`. -/
structure WasmExpr where
  latex : Option String := none
  confidence : Option Rat := none
deriving DecidableEq

/-- Value returned by the Seshat WASM engine's `recognizeText`. -/
structure WasmText where
  text : Option String := none
  confidence : Option Rat := none
deriving DecidableEq

/-- The stub LaTeX `\frac{x^2}{2}` the Seshat adapter fabricates on its
degraded paths. -/
def seshatStubLatex : String := "\\frac\x7bx^2\x7d\x7b2\x7d"

/-- The degraded-path stub Result of `SeshatProvider.recognizeMath`. -/
def seshatMathStub : RecognitionResult :=
  { success := true, latex := some seshatStubLatex, confidence := 0.8,
    fallbackProvider := some "stub" }

/-- The degraded-path stub Result of `SeshatProvider.recognizeText`. -/
def seshatTextStub : RecognitionResult :=
  { success := true, text := some "Пример распознанного текста",
    confidence := 0.7, fallbackProvider := some "stub" }

/-- `SeshatProvider.recognizeMath`, as a function of: `init` — the awaited
initialization (rejection, or resolution with the engine ready or not);
`api` — the backend-API fallback call, consulted only when the engine is
not ready; `pre` — `preprocessImage` (its own throw is caught by the outer
catch); `wasm` — the `recognizeExpression` call, `ok none` when the engine
returns a falsy result. A caught exception yields the stub with the message
attached; a not-ready engine yields the API body (tagged
`fallbackProvider:'api'`) or the stub. -/
def seshatRecognizeMath (init : Outcome Bool) (api : ApiOutcome)
    (pre : Outcome Unit) (wasm : Outcome (Option WasmExpr)) :
    RecognitionResult :=
  match init with
  | .exn m => { seshatMathStub with error := some m }
  | .ok ready =>
    if ready then
      match pre with
      | .exn m => { seshatMathStub with error := some m }
      | .ok _ =>
        match wasm with
        | .exn m => { seshatMathStub with error := some m }
        | .ok none =>
          { success := false, confidence := 0,
            error := some "Failed to recognize expression" }
        | .ok (some w) =>
          if jsStrFalsy w.latex then
            { success := false, confidence := 0,
              error := some "Failed to recognize expression" }
          else
            { success := true, latex := w.latex,
              confidence := jsNumOr w.confidence 0.7 }
    else
      match api with
      | .ok r => { r with fallbackProvider := some "api" }
      | _ => seshatMathStub

/-- `SeshatProvider.recognizeText`, symmetric to `seshatRecognizeMath`. -/
def seshatRecognizeText (init : Outcome Bool) (api : ApiOutcome)
    (pre : Outcome Unit) (wasm : Outcome (Option WasmText)) :
    RecognitionResult :=
  match init with
  | .exn m => { seshatTextStub with error := some m }
  | .ok ready =>
    if ready then
      match pre with
      | .exn m => { seshatTextStub with error := some m }
      | .ok _ =>
        match wasm with
        | .exn m => { seshatTextStub with error := some m }
        | .ok none =>
          { success := false, confidence := 0,
            error := some "Failed to recognize text" }
        | .ok (some w) =>
          if jsStrFalsy w.text then
            { success := false, confidence := 0,
              error := some "Failed to recognize text" }
          else
            { success := true, text := w.text,
              confidence := jsNumOr w.confidence 0.5 }
    else
      match api with
      | .ok r => { r with fallbackProvider := some "api" }
      | _ => seshatTextStub

/-- Parsed body of a MathPix API response. -/
structure MathPixBody where
  latex : Option String := none
  text : Option String := none
  confidence : Option Rat := none
deriving DecidableEq

/-- Outcome of the MathPix `fetch` (plus `response.json()`): rejection, a
non-2xx response whose stringified error body is `errJson`, or a parsed
body (`ok none` when the body is falsy). -/
inductive FetchOutcome where
  | exn (msg : String)
  | httpError (errJson : String)
  | ok (body : Option MathPixBody)
deriving DecidableEq

/-- `MathPixProvider.recognizeMath`, as a function of the credential state
(`appId`, `apiKey`, falsy when unset), the `convertToBase64` outcome and
the API call outcome. Missing credentials, a rejected conversion, a
rejected fetch and a non-2xx response are all caught by the outer catch and
converted to `{success:false, confidence:0, error}`. -/
def mathPixRecognizeMath (appId apiKey : Option String)
    (conv : Outcome Unit) (fetch : FetchOutcome) : RecognitionResult :=
  if jsStrFalsy appId || jsStrFalsy apiKey then
    { success := false, confidence := 0,
      error := some "MathPix credentials are not set" }
  else
    match conv with
    | .exn m => { success := false, confidence := 0, error := some m }
    | .ok _ =>
      match fetch with
      | .exn m => { success := false, confidence := 0, error := some m }
      | .httpError errJson =>
        { success := false, confidence := 0,
          error := some ("MathPix API error: " ++ errJson) }
      | .ok none =>
        { success := false, confidence := 0,
          error := some "No valid result returned from MathPix" }
      | .ok (some res) =>
        if jsStrFalsy res.latex && jsStrFalsy res.text then
          { success := false, confidence := 0,
            error := some "No valid result returned from MathPix" }
        else
          { success := true,
            latex := if jsStrFalsy res.latex then none else res.latex,
            text := if jsStrFalsy res.text then none else res.text,
            confidence := jsNumOr res.confidence 0.9 }

/-- `MathPixProvider.recognizeText`: same outer structure; the body check is
on `text` only and `text` is passed through as returned. -/
def mathPixRecognizeText (appId apiKey : Option String)
    (conv : Outcome Unit) (fetch : FetchOutcome) : RecognitionResult :=
  if jsStrFalsy appId || jsStrFalsy apiKey then
    { success := false, confidence := 0,
      error := some "MathPix credentials are not set" }
  else
    match conv with
    | .exn m => { success := false, confidence := 0, error := some m }
    | .ok _ =>
      match fetch with
      | .exn m => { success := false, confidence := 0, error := some m }
      | .httpError errJson =>
        { success := false, confidence := 0,
          error := some ("MathPix API error: " ++ errJson) }
      | .ok none =>
        { success := false, confidence := 0,
          error := some "No valid text result returned from MathPix" }
      | .ok (some res) =>
        if jsStrFalsy res.text then
          { success := false, confidence := 0,
            error := some "No valid text result returned from MathPix" }
        else
          { success := true, text := res.text,
            confidence := jsNumOr res.confidence 0.9 }

/-- The spec's Result invariant: a successful Result carries at least one of
`latex` / `text`; a failed Result carries `error`. -/
def wellFormed (r : RecognitionResult) : Prop :=
  (r.success = true → r.latex ≠ none ∨ r.text ≠ none) ∧
  (r.success = false → r.error ≠ none)

instance (r : RecognitionResult) : Decidable (wellFormed r) := by
  unfold wellFormed; infer_instance

/-! ### Concrete fixtures (used to instantiate the theorems) -/

/-- A successful math Result. -/
def okMathResult : RecognitionResult :=
  { success := true, latex := some "x+1", confidence := 0.9 }

/-- A second successful math Result. -/
def okMathResult2 : RecognitionResult :=
  { success := true, latex := some "y-2", confidence := 0.9 }

/-- An available provider whose math attempt fails with error `"x"`. -/
def provFailX : Provider :=
  { id := "fx", name := "FailX", availability := .ok true,
    mathResult := fun _ => .ok (failureResult "x"),
    textResult := fun _ => .ok (failureResult "x") }

/-- An available provider whose math attempt fails with error `"y"`. -/
def provFailY : Provider :=
  { id := "fy", name := "FailY", availability := .ok true,
    mathResult := fun _ => .ok (failureResult "y"),
    textResult := fun _ => .ok (failureResult "y") }

/-- An available provider whose math attempt fails with no error message. -/
def provFailNone : Provider :=
  { id := "fn", name := "FailNone", availability := .ok true,
    mathResult := fun _ => .ok { success := false, confidence := 0 },
    textResult := fun _ => .ok { success := false, confidence := 0 } }

/-- An available provider that succeeds. -/
def provOkA : Provider :=
  { id := "oka", name := "OkA", availability := .ok true,
    mathResult := fun _ => .ok okMathResult,
    textResult := fun _ => .ok okMathResult }

/-- A second available provider that succeeds (must never be invoked after
`provOkA`). -/
def provOkB : Provider :=
  { id := "okb", name := "OkB", availability := .ok true,
    mathResult := fun _ => .ok okMathResult2,
    textResult := fun _ => .ok okMathResult2 }

/-- A registered but unavailable provider. -/
def provUnavail : Provider :=
  { id := "un", name := "Unavail", availability := .ok false,
    mathResult := fun _ => .ok okMathResult,
    textResult := fun _ => .ok okMathResult }

/-- A provider whose availability check rejects. -/
def provAvailThrows : Provider :=
  { id := "at", name := "AvailThrows", availability := .exn "probe boom",
    mathResult := fun _ => .ok okMathResult,
    textResult := fun _ => .ok okMathResult }

/-- An available provider whose recognition call rejects. -/
def provRecThrows : Provider :=
  { id := "rt", name := "RecThrows", availability := .ok true,
    mathResult := fun _ => .exn "rec boom",
    textResult := fun _ => .exn "rec boom" }

/-- First of two providers sharing the id `"dup"`. -/
def provDup1 : Provider :=
  { id := "dup", name := "Dup1", availability := .ok true,
    mathResult := fun _ => .ok okMathResult,
    textResult := fun _ => .ok okMathResult }

/-- Second of two providers sharing the id `"dup"`. -/
def provDup2 : Provider :=
  { id := "dup", name := "Dup2", availability := .ok false,
    mathResult := fun _ => .ok okMathResult2,
    textResult := fun _ => .ok okMathResult2 }

/-- A fixed payload used by the witnesses. -/
def witImg : ImageInput := ImageInput.blob [0]

/-! ## Theorems -/

/-! ### Base64 round trip -/

theorem b64Val_b64Chr : ∀ v < 64, b64Val (b64Chr v) = some v := by decide

theorem b64Chr_ne_pad : ∀ v < 64, b64Chr v ≠ '=' := by decide

theorem decode_encodeB64 : ∀ (bs : List Nat), (∀ b ∈ bs, b < 256) →
    decodeB64 (encodeB64 bs) = some bs
  | [], _ => rfl
  | [b1], h => by
    have hb1 : b1 < 256 := h b1 (by simp)
    have h1 := b64Val_b64Chr (b1 / 4) (by omega)
    have h2 := b64Val_b64Chr (b1 % 4 * 16) (by omega)
    simp [encodeB64, decodeB64, h1, h2]
    omega
  | [b1, b2], h => by
    have hb1 : b1 < 256 := h b1 (by simp)
    have hb2 : b2 < 256 := h b2 (by simp)
    have h1 := b64Val_b64Chr (b1 / 4) (by omega)
    have h2 := b64Val_b64Chr (b1 % 4 * 16 + b2 / 16) (by omega)
    have h3 := b64Val_b64Chr (b2 % 16 * 4) (by omega)
    have hne3 := b64Chr_ne_pad (b1 % 4 * 16 + b2 / 16) (by omega)
    have hne3' := b64Chr_ne_pad (b2 % 16 * 4) (by omega)
    simp [encodeB64, decodeB64, h1, h2, h3, hne3']
    omega
  | b1 :: b2 :: b3 :: rest, h => by
    have hb1 : b1 < 256 := h b1 (by simp)
    have hb2 : b2 < 256 := h b2 (by simp)
    have hb3 : b3 < 256 := h b3 (by simp)
    have ih : decodeB64 (encodeB64 rest) = some rest :=
      decode_encodeB64 rest (fun b hb => h b (by simp at hb ⊢; tauto))
    have h1 := b64Val_b64Chr (b1 / 4) (by omega)
    have h2 := b64Val_b64Chr (b1 % 4 * 16 + b2 / 16) (by omega)
    have h3 := b64Val_b64Chr (b2 % 16 * 4 + b3 / 64) (by omega)
    have h4 := b64Val_b64Chr (b3 % 64) (by omega)
    have hne3 := b64Chr_ne_pad (b2 % 16 * 4 + b3 / 64) (by omega)
    have hne4 := b64Chr_ne_pad (b3 % 64) (by omega)
    simp [encodeB64, decodeB64, h1, h2, h3, h4, hne3, hne4, ih]
    omega

/-- **C10.** The payload normalizer `preprocessImage` is pure and
deterministic: a valid bare base64 string yields exactly its base64
decoding; a `data:` string has everything up to the comma stripped and the
remainder decoded; blob bytes pass through unchanged; the same input always
yields the same output; and re-encoding any produced byte sequence
round-trips to the same bytes. -/
theorem preprocessImage_normalizer :
    (∀ (s : String) (bs : List Nat), startsWithData s.toList = false →
      decodeB64 s.toList = some bs →
      preprocessImage (ImageInput.str s) = some bs) ∧
    (∀ (s : String) (hd b64 : List Char) (rest : List (List Char)),
      startsWithData s.toList = true →
      splitOnComma s.toList = hd :: b64 :: rest →
      preprocessImage (ImageInput.str s) = decodeB64 b64) ∧
    (∀ bs : List Nat, preprocessImage (ImageInput.blob bs) = some bs) ∧
    (∀ (x : ImageInput) (r1 r2 : Option (List Nat)),
      preprocessImage x = r1 → preprocessImage x = r2 → r1 = r2) ∧
    (∀ (x : ImageInput) (out : List Nat), preprocessImage x = some out →
      (∀ b ∈ out, b < 256) → decodeB64 (encodeB64 out) = some out) := by
  refine ⟨?_, ?_, ?_, ?_, ?_⟩
  · intro s bs hd hdec
    simp only [preprocessImage, hd, Bool.false_eq_true, if_false]
    exact hdec
  · intro s hd b64 rest hs hsplit
    simp only [preprocessImage, hs, if_true, hsplit]
  · intro bs; rfl
  · intro x r1 r2 e1 e2; rw [← e1, ← e2]
  · intro x out _ hb; exact decode_encodeB64 out hb

/-- Witness for C10: concrete instances of each conjunct
(`"QUJD"` decodes to the bytes of `"ABC"`). -/
theorem preprocessImage_normalizer_witness :
    preprocessImage (ImageInput.str "QUJD") = some [65, 66, 67] ∧
    preprocessImage (ImageInput.str "data:image/png;base64,QUJD") =
      decodeB64 "QUJD".toList ∧
    preprocessImage (ImageInput.blob [1, 2, 3]) = some [1, 2, 3] ∧
    decodeB64 (encodeB64 [65, 66, 67]) = some [65, 66, 67] :=
  ⟨preprocessImage_normalizer.1 "QUJD" [65, 66, 67] (by decide) (by decide),
   preprocessImage_normalizer.2.1 "data:image/png;base64,QUJD"
     "data:image/png;base64".toList "QUJD".toList [] (by decide) (by decide),
   preprocessImage_normalizer.2.2.1 [1, 2, 3],
   preprocessImage_normalizer.2.2.2.2 (ImageInput.blob [65, 66, 67])
     [65, 66, 67] rfl (by decide)⟩

/-! ### Orchestrator lemmas -/

theorem tryProviders_first_success (recOf : Provider → Outcome RecognitionResult)
    (p : Provider) (post : List Provider) (rp : RecognitionResult)
    (hp : recOf p = Outcome.ok rp) (hs : rp.success = true) :
    ∀ (pre : List Provider), (pre.all fun q => attemptFailsB (recOf q)) = true →
    ∀ (acc : Option String),
      tryProviders recOf (pre ++ p :: post) acc =
        (rp, pre.map (fun q => q.id) ++ [p.id])
  | [], _, acc => by simp [tryProviders, hp, hs]
  | q :: pre, hall, acc => by
    simp only [List.all_cons, Bool.and_eq_true] at hall
    obtain ⟨hq, htail⟩ := hall
    cases hrec : recOf q with
    | ok r =>
      have hrs : r.success = false := by
        rw [hrec] at hq; simpa [attemptFailsB] using hq
      simp [tryProviders, hrec, hrs,
        tryProviders_first_success recOf p post rp hp hs pre htail r.error]
    | exn m =>
      simp [tryProviders, hrec,
        tryProviders_first_success recOf p post rp hp hs pre htail (some m)]

theorem tryProviders_all_fail (recOf : Provider → Outcome RecognitionResult) :
    ∀ (l : List Provider), (l.all fun q => attemptFailsB (recOf q)) = true →
    ∀ (acc : Option String),
      tryProviders recOf l acc =
        (failureResult (orDefaultError (lastErrorOf recOf l acc)),
         l.map (fun q => q.id))
  | [], _, acc => by simp [tryProviders, lastErrorOf]
  | q :: l, hall, acc => by
    simp only [List.all_cons, Bool.and_eq_true] at hall
    obtain ⟨hq, htail⟩ := hall
    cases hrec : recOf q with
    | ok r =>
      have hrs : r.success = false := by
        rw [hrec] at hq; simpa [attemptFailsB] using hq
      simp [tryProviders, hrec, hrs, lastErrorOf,
        tryProviders_all_fail recOf l htail r.error]
    | exn m =>
      simp [tryProviders, hrec, lastErrorOf,
        tryProviders_all_fail recOf l htail (some m)]

theorem tryProviders_invoked (recOf : Provider → Outcome RecognitionResult) :
    ∀ (l : List Provider) (acc : Option String),
      (tryProviders recOf l acc).2 = attemptedIds recOf l
  | [], _ => rfl
  | q :: l, acc => by
    cases hrec : recOf q with
    | ok r =>
      cases hrs : r.success
      · simp [tryProviders, attemptedIds, hrec, hrs,
          tryProviders_invoked recOf l r.error]
      · simp [tryProviders, attemptedIds, hrec, hrs]
    | exn m =>
      simp [tryProviders, attemptedIds, hrec,
        tryProviders_invoked recOf l (some m)]

theorem recognizeWith_trace (recOf : Provider → Outcome RecognitionResult)
    (s : List Provider) :
    (recognizeWith recOf s none).2 =
      ⟨s.map (fun p => p.id), attemptedIds recOf (s.filter isAvailableOk)⟩ := by
  cases hE : (s.filter isAvailableOk).isEmpty
  · simp [recognizeWith, hE, tryProviders_invoked]
  · have h0 : s.filter isAvailableOk = [] := by
      cases h : s.filter isAvailableOk
      · rfl
      · rw [h] at hE; exact absurd hE (by simp)
    simp [recognizeWith, hE, h0, attemptedIds]

theorem lastErrorOf_append_last (recOf : Provider → Outcome RecognitionResult)
    (q : Provider) :
    ∀ (l : List Provider) (acc : Option String),
      lastErrorOf recOf (l ++ [q]) acc =
        (match recOf q with
         | Outcome.ok r => r.error
         | Outcome.exn m => some m)
  | [], acc => by simp [lastErrorOf]
  | x :: l, acc => by
    simp [lastErrorOf, lastErrorOf_append_last recOf q l]

/-- **C1.** Implicit selection is first-success-wins: with the kind-specific
method `recOf` (instantiate `recOf := fun p => p.mathResult img`, resp.
`p.textResult img`, for `recognizeMath` / `recognizeText` on payload `img`),
if the available candidates split as `pre ++ p :: post` where every
candidate of `pre` fails its attempt and `p` resolves to a Result with
`success = true`, the orchestrator returns `p`'s Result verbatim (so no
earlier failure message appears in it) and the invoked candidates are
exactly those of `pre` followed by `p` — nothing in `post` is ever
invoked. -/
theorem first_success_wins (recOf : Provider → Outcome RecognitionResult)
    (s pre post : List Provider) (p : Provider) (rp : RecognitionResult)
    (hsplit : s.filter isAvailableOk = pre ++ p :: post)
    (hpre : (pre.all fun q => attemptFailsB (recOf q)) = true)
    (hp : recOf p = Outcome.ok rp) (hs : rp.success = true) :
    recognizeWith recOf s none =
      (rp, ⟨s.map (fun q => q.id), pre.map (fun q => q.id) ++ [p.id]⟩) := by
  have key := tryProviders_first_success recOf p post rp hp hs pre hpre none
  have hne : (pre ++ p :: post).isEmpty = false := by cases pre <;> rfl
  simp only [recognizeWith, hsplit]
  simp [hne, key]

/-- Witness for C1: `provFailX` fails, `provOkA` succeeds, `provOkB` is
registered after `provOkA` and never invoked. -/
theorem first_success_wins_witness :
    recognizeWith (fun p => p.mathResult witImg)
        [provFailX, provOkA, provOkB] none =
      (okMathResult, ⟨["fx", "oka", "okb"], ["fx", "oka"]⟩) :=
  first_success_wins (fun p => p.mathResult witImg)
    [provFailX, provOkA, provOkB] [provFailX] [provOkB] provOkA okMathResult
    rfl rfl rfl rfl

/-- **C2.** Explicit provider selection: an unknown id fails with the
provider-not-found error and probes/invokes nobody; a known but unavailable
provider fails with the provider-unavailable error, probing only that
provider and invoking nobody; a known available provider has its
kind-specific method invoked once and its Result returned verbatim. In all
three cases the trace shows no other provider is probed or invoked (no
fallback). -/
theorem explicit_selection (recOf : Provider → Outcome RecognitionResult)
    (s : List Provider) (pid : String) (p : Provider)
    (r : RecognitionResult) :
    (getProvider s pid = none →
      recognizeWith recOf s (some pid) =
        (failureResult (providerNotFoundMsg pid), ⟨[], []⟩)) ∧
    (getProvider s pid = some p → p.availability = Outcome.ok false →
      recognizeWith recOf s (some pid) =
        (failureResult (providerUnavailableMsg p.name), ⟨[pid], []⟩)) ∧
    (getProvider s pid = some p → p.availability = Outcome.ok true →
      recOf p = Outcome.ok r →
      recognizeWith recOf s (some pid) = (r, ⟨[pid], [pid]⟩)) := by
  refine ⟨?_, ?_, ?_⟩
  · intro h; simp [recognizeWith, h]
  · intro h hav; simp [recognizeWith, h, hav]
  · intro h hav hrec; simp [recognizeWith, h, hav, hrec]

/-- Witness for C2: unknown id `"zzz"`, unavailable `provUnavail`, and
direct invocation of `provOkA`, over the registry
`[provUnavail, provOkA]`. -/
theorem explicit_selection_witness :
    recognizeWith (fun p => p.mathResult witImg) [provUnavail, provOkA]
        (some "zzz") =
      (failureResult (providerNotFoundMsg "zzz"), ⟨[], []⟩) ∧
    recognizeWith (fun p => p.mathResult witImg) [provUnavail, provOkA]
        (some "un") =
      (failureResult (providerUnavailableMsg "Unavail"), ⟨["un"], []⟩) ∧
    recognizeWith (fun p => p.mathResult witImg) [provUnavail, provOkA]
        (some "oka") =
      (okMathResult, ⟨["oka"], ["oka"]⟩) :=
  ⟨(explicit_selection (fun p => p.mathResult witImg) [provUnavail, provOkA]
      "zzz" provUnavail okMathResult).1 rfl,
   (explicit_selection (fun p => p.mathResult witImg) [provUnavail, provOkA]
      "un" provUnavail okMathResult).2.1 rfl rfl,
   (explicit_selection (fun p => p.mathResult witImg) [provUnavail, provOkA]
      "oka" provOkA okMathResult).2.2 rfl rfl rfl⟩

/-- **C3 counterexample.** A single available candidate that fails without
an error message: the code returns the literal
`'Recognition failed with all available providers'` (capital `R`), not the
lowercase literal the claim states, so the claim as written is false at
this input. -/
theorem all_fail_default_counterexample :
    (recognizeWith (fun p => p.mathResult witImg) [provFailNone] none).1.error =
      some "Recognition failed with all available providers" ∧
    (recognizeWith (fun p => p.mathResult witImg) [provFailNone] none).1.error ≠
      some "recognition failed with all available providers" :=
  ⟨rfl, by decide⟩

/-- **C3 (amended).** When every available candidate is attempted and none
succeeds, the orchestrator returns `{success:false, confidence:0, error}`
where the error is the last recorded error — each candidate overwrites
`lastError` with its Result's `error` field (possibly absent) or its
exception message — and where an absent or empty last error falls back to
the literal `'Recognition failed with all available providers'`
(JS `lastError || default`). -/
theorem all_fail_returns_last_error (recOf : Provider → Outcome RecognitionResult)
    (s : List Provider)
    (hne : s.filter isAvailableOk ≠ [])
    (hfail : ((s.filter isAvailableOk).all fun q => attemptFailsB (recOf q)) = true) :
    recognizeWith recOf s none =
      (failureResult
        (orDefaultError (lastErrorOf recOf (s.filter isAvailableOk) none)),
       ⟨s.map (fun q => q.id), (s.filter isAvailableOk).map (fun q => q.id)⟩) := by
  have hE : (s.filter isAvailableOk).isEmpty = false := by
    cases h : s.filter isAvailableOk
    · exact absurd h hne
    · rfl
  have key := tryProviders_all_fail recOf (s.filter isAvailableOk) hfail none
  simp [recognizeWith, hE, key]

/-- Witness for C3 (amended): candidates failing with errors `"x"` then
`"y"` — the last error `"y"` wins. -/
theorem all_fail_returns_last_error_witness :
    recognizeWith (fun p => p.mathResult witImg) [provFailX, provFailY] none =
      (failureResult "y", ⟨["fx", "fy"], ["fx", "fy"]⟩) :=
  all_fail_returns_last_error (fun p => p.mathResult witImg)
    [provFailX, provFailY] (by exact List.cons_ne_nil _ _) rfl

/-- **C4 counterexample.** With no providers registered the code returns the
literal `'No available recognition providers'` (capital `N`), not the
lowercase literal the claim states, so the claim as written is false at
this input. -/
theorem no_available_counterexample :
    (recognizeWith (fun p => p.mathResult witImg) [] none).1 =
      failureResult "No available recognition providers" ∧
    (recognizeWith (fun p => p.mathResult witImg) [] none).1.error ≠
      some "no available recognition providers" :=
  ⟨rfl, by decide⟩

/-- **C4 (amended).** For any registry whose availability filter is empty
(in particular an empty registry) and either recognition kind, the implicit
path returns exactly
`{success:false, confidence:0, error:'No available recognition providers'}`
after probing every registered provider and invoking none. -/
theorem no_available_providers_result (recOf : Provider → Outcome RecognitionResult)
    (s : List Provider) (h : s.filter isAvailableOk = []) :
    recognizeWith recOf s none =
      (failureResult "No available recognition providers",
       ⟨s.map (fun q => q.id), []⟩) := by
  simp [recognizeWith, h]

/-- Witness for C4 (amended): a registry with one unavailable provider and
one whose availability check throws. -/
theorem no_available_providers_result_witness :
    recognizeWith (fun p => p.mathResult witImg)
        [provUnavail, provAvailThrows] none =
      (failureResult "No available recognition providers",
       ⟨["un", "at"], []⟩) :=
  no_available_providers_result (fun p => p.mathResult witImg)
    [provUnavail, provAvailThrows] rfl

/-- **C5.** Per-provider failures are swallowed during implicit selection:
a provider whose availability check rejects is excluded from the candidate
set while all other providers are still filtered normally; a candidate
whose recognition call rejects only records its message and iteration
continues (a later success is still returned); and when a rejecting
candidate is last, its message becomes the aggregate error of the final
failure Result. -/
theorem per_provider_failures_swallowed
    (recOf : Provider → Outcome RecognitionResult) :
    (∀ (pre : List Provider) (q : Provider) (post : List Provider) (m : String),
      q.availability = Outcome.exn m →
      (pre ++ q :: post).filter isAvailableOk =
        pre.filter isAvailableOk ++ post.filter isAvailableOk) ∧
    (∀ (s pre : List Provider) (q p : Provider) (post : List Provider)
        (rp : RecognitionResult) (m : String),
      s.filter isAvailableOk = pre ++ q :: p :: post →
      (pre.all fun x => attemptFailsB (recOf x)) = true →
      recOf q = Outcome.exn m →
      recOf p = Outcome.ok rp → rp.success = true →
      recognizeWith recOf s none =
        (rp, ⟨s.map (fun x => x.id),
              pre.map (fun x => x.id) ++ [q.id, p.id]⟩)) ∧
    (∀ (s pre : List Provider) (q : Provider) (m : String),
      s.filter isAvailableOk = pre ++ [q] →
      (pre.all fun x => attemptFailsB (recOf x)) = true →
      recOf q = Outcome.exn m → m ≠ "" →
      (recognizeWith recOf s none).1 = failureResult m) := by
  refine ⟨?_, ?_, ?_⟩
  · intro pre q post m hq
    have hqa : isAvailableOk q = false := by simp [isAvailableOk, hq]
    simp [List.filter_append, hqa]
  · intro s pre q p post rp m hsplit hpre hq hp hs
    have hq' : attemptFailsB (recOf q) = true := by simp [attemptFailsB, hq]
    have hall : ((pre ++ [q]).all fun x => attemptFailsB (recOf x)) = true := by
      simp [hpre, hq']
    have key := tryProviders_first_success recOf p post rp hp hs (pre ++ [q]) hall none
    have key' : tryProviders recOf (pre ++ q :: p :: post) none =
        (rp, pre.map (fun x => x.id) ++ [q.id, p.id]) := by
      simpa using key
    have hne : (pre ++ q :: p :: post).isEmpty = false := by cases pre <;> rfl
    simp only [recognizeWith, hsplit]
    simp [hne, key']
  · intro s pre q m hsplit hpre hq hm
    have hq' : attemptFailsB (recOf q) = true := by simp [attemptFailsB, hq]
    have hall : ((pre ++ [q]).all fun x => attemptFailsB (recOf x)) = true := by
      simp [hpre, hq']
    have hlast : lastErrorOf recOf (pre ++ [q]) none = some m := by
      rw [lastErrorOf_append_last recOf q pre none, hq]
    have hne : (pre ++ [q]).isEmpty = false := by cases pre <;> rfl
    have key := tryProviders_all_fail recOf (pre ++ [q]) hall none
    simp only [recognizeWith, hsplit]
    simp [hne, key, hlast, orDefaultError, hm]

/-- Witness for C5: an availability-throwing provider is skipped while its
neighbours are kept; a recognition-throwing candidate is followed by a
successful one whose Result is returned; a recognition-throwing last
candidate's message becomes the final error. -/
theorem per_provider_failures_swallowed_witness :
    ([provFailX, provAvailThrows, provOkA].filter isAvailableOk =
      [provFailX].filter isAvailableOk ++ [provOkA].filter isAvailableOk) ∧
    recognizeWith (fun p => p.mathResult witImg) [provRecThrows, provOkA] none =
      (okMathResult, ⟨["rt", "oka"], ["rt", "oka"]⟩) ∧
    (recognizeWith (fun p => p.mathResult witImg) [provRecThrows] none).1 =
      failureResult "rec boom" :=
  ⟨(per_provider_failures_swallowed (fun p => p.mathResult witImg)).1
     [provFailX] provAvailThrows [provOkA] "probe boom" rfl,
   (per_provider_failures_swallowed (fun p => p.mathResult witImg)).2.1
     [provRecThrows, provOkA] [] provRecThrows provOkA [] okMathResult
     "rec boom" rfl rfl rfl rfl rfl,
   (per_provider_failures_swallowed (fun p => p.mathResult witImg)).2.2
     [provRecThrows] [] provRecThrows "rec boom" rfl rfl rfl (by decide)⟩

/-! ### Registry lemmas -/

theorem foldl_register_fresh :
    ∀ (ps acc : List Provider), (ps.map (fun p => p.id)).Nodup →
      (∀ p ∈ ps, ∀ q ∈ acc, q.id ≠ p.id) →
      List.foldl registerProvider acc ps = acc ++ ps
  | [], acc, _, _ => by simp
  | p :: ps, acc, hnodup, hfresh => by
    have hany : (acc.any fun q => q.id == p.id) = false := by
      rw [List.any_eq_false]
      intro q hq
      simpa using hfresh p (by simp) q hq
    have hstep : registerProvider acc p = acc ++ [p] := by
      simp [registerProvider, hany]
    rw [List.map_cons, List.nodup_cons] at hnodup
    obtain ⟨hnotin, htail⟩ := hnodup
    have hfresh' : ∀ x ∈ ps, ∀ q ∈ acc ++ [p], q.id ≠ x.id := by
      intro x hx q hq
      rcases List.mem_append.mp hq with h | h
      · exact hfresh x (by simp [hx]) q h
      · have hqp : q = p := by simpa using h
        subst hqp
        intro he
        exact hnotin (he ▸ List.mem_map_of_mem (fun p => p.id) hx)
    have := foldl_register_fresh ps (acc ++ [p]) htail hfresh'
    rw [List.foldl_cons, hstep, this]
    simp

theorem any_registerProvider (s : List Provider) (p : Provider) :
    ((registerProvider s p).any fun q => q.id == p.id) = true := by
  by_cases h : (s.any fun q => q.id == p.id) = true
  · rw [registerProvider, if_pos h]
    rw [List.any_eq_true] at h ⊢
    obtain ⟨q, hq, hqid⟩ := h
    exact ⟨p, List.mem_map.mpr ⟨q, hq, by simp [hqid]⟩, by simp⟩
  · rw [registerProvider, if_neg h]
    rw [List.any_eq_true]
    exact ⟨p, by simp, by simp⟩

theorem find_replace (l : List Provider) (p2 : Provider)
    (h : (l.any fun q => q.id == p2.id) = true) :
    ((l.map fun q => if q.id == p2.id then p2 else q).find?
      fun q => q.id == p2.id) = some p2 := by
  induction l with
  | nil => simp at h
  | cons x l ih =>
    rw [List.map_cons]
    by_cases hx : (x.id == p2.id) = true
    · rw [if_pos hx, List.find?_cons_of_pos _ (by simp)]
    · have h' : (l.any fun q => q.id == p2.id) = true := by
        rw [List.any_cons] at h
        simpa [hx] using h
      rw [if_neg hx]
      have step : List.find? (fun q => q.id == p2.id)
          (x :: List.map (fun q => if q.id == p2.id then p2 else q) l) =
          List.find? (fun q => q.id == p2.id)
            (List.map (fun q => if q.id == p2.id then p2 else q) l) :=
        List.find?_cons_of_neg _ hx
      rw [step]
      exact ih h'

/-! ### C8, C9 -/

/-- **C8.** Enumeration order is registration order: registering a sequence
of distinct-id providers into an empty registry makes `getAllProviders`
return them in exactly that order, and the implicit-selection path probes
all of them in that order and attempts the available ones in the same
first-registered-first-tried order (up to the first success), for both
recognition kinds — deterministically, as all functions involved are
pure. -/
theorem registration_order_determines_iteration (ps : List Provider)
    (img : ImageInput) (hnodup : (ps.map (fun p => p.id)).Nodup) :
    getAllProviders (List.foldl registerProvider [] ps) = ps ∧
    (recognizeMathService (List.foldl registerProvider [] ps) img none).2 =
      ⟨ps.map (fun p => p.id),
       attemptedIds (fun p => p.mathResult img) (ps.filter isAvailableOk)⟩ ∧
    (recognizeTextService (List.foldl registerProvider [] ps) img none).2 =
      ⟨ps.map (fun p => p.id),
       attemptedIds (fun p => p.textResult img) (ps.filter isAvailableOk)⟩ := by
  have hfold : List.foldl registerProvider [] ps = ps := by
    simpa using foldl_register_fresh ps [] hnodup (by simp)
  refine ⟨by simp [getAllProviders, hfold], ?_, ?_⟩
  · unfold recognizeMathService
    rw [hfold]
    exact recognizeWith_trace _ ps
  · unfold recognizeTextService
    rw [hfold]
    exact recognizeWith_trace _ ps

/-- Witness for C8: three providers registered in order; the math path
probes all three in order and attempts the two available ones in order. -/
theorem registration_order_witness :
    getAllProviders
        (List.foldl registerProvider [] [provFailX, provUnavail, provOkA]) =
      [provFailX, provUnavail, provOkA] ∧
    (recognizeMathService
        (List.foldl registerProvider [] [provFailX, provUnavail, provOkA])
        witImg none).2 =
      ⟨["fx", "un", "oka"], ["fx", "oka"]⟩ :=
  ⟨(registration_order_determines_iteration
      [provFailX, provUnavail, provOkA] witImg (by decide)).1,
   (registration_order_determines_iteration
      [provFailX, provUnavail, provOkA] witImg (by decide)).2.1⟩

/-- **C9.** Last registration wins: after registering `p1` then `p2` with
the same id, `getProvider` of that id returns `p2` and can never return
`p1`, the registry length is unchanged from after registering `p1` alone,
and `p1` is no longer reachable at all; and unregistering any id makes
`getProvider` of that id return `undefined`. -/
theorem register_last_wins (s : List Provider) (p1 p2 : Provider)
    (hid : p1.id = p2.id) (hne : p1 ≠ p2) :
    getProvider (registerProvider (registerProvider s p1) p2) p2.id = some p2 ∧
    (registerProvider (registerProvider s p1) p2).length =
      (registerProvider s p1).length ∧
    (∀ pid, getProvider (registerProvider (registerProvider s p1) p2) pid ≠
      some p1) ∧
    p1 ∉ getAllProviders (registerProvider (registerProvider s p1) p2) ∧
    (∀ (s2 : List Provider) (pid : String),
      getProvider (unregisterProvider s2 pid) pid = none) := by
  have hany : ((registerProvider s p1).any fun q => q.id == p2.id) = true := by
    have h0 := any_registerProvider s p1
    rw [hid] at h0
    exact h0
  have hrepl : registerProvider (registerProvider s p1) p2 =
      (registerProvider s p1).map fun q => if q.id == p2.id then p2 else q := by
    rw [registerProvider, if_pos hany]
  have hnot : p1 ∉
      ((registerProvider s p1).map fun q => if q.id == p2.id then p2 else q) := by
    intro hmem
    obtain ⟨q, hq, hq2⟩ := List.mem_map.mp hmem
    by_cases hqid : (q.id == p2.id) = true
    · rw [if_pos hqid] at hq2
      exact hne hq2.symm
    · rw [if_neg hqid] at hq2
      apply hqid
      rw [hq2, hid]
      simp
  refine ⟨?_, ?_, ?_, ?_, ?_⟩
  · rw [hrepl]
    exact find_replace (registerProvider s p1) p2 hany
  · rw [hrepl]; simp
  · intro pid h
    unfold getProvider at h
    exact hnot (hrepl ▸ List.mem_of_find?_eq_some h)
  · rw [getAllProviders, hrepl]
    exact hnot
  · intro s2 pid
    unfold getProvider unregisterProvider
    rw [List.find?_eq_none]
    intro x hx
    have hxf := (List.mem_filter.mp hx).2
    simpa using hxf

/-- Witness for C9: `provDup1` then `provDup2` on the id `"dup"` in an
empty registry, plus unregistration. -/
theorem register_last_wins_witness :
    getProvider (registerProvider (registerProvider [] provDup1) provDup2)
        "dup" = some provDup2 ∧
    (registerProvider (registerProvider [] provDup1) provDup2).length =
      (registerProvider [] provDup1).length ∧
    getProvider (unregisterProvider [provDup1] "dup") "dup" = none := by
  have h := register_last_wins [] provDup1 provDup2 rfl (by
    intro he
    exact absurd (congrArg Provider.name he) (by decide))
  exact ⟨h.1, h.2.1, h.2.2.2.2 [provDup1] "dup"⟩

/-! ### Adapter lemmas -/

theorem jsStrFalsy_false_ne_none (o : Option String)
    (h : jsStrFalsy o = false) : o ≠ none := by
  cases o
  · simp [jsStrFalsy] at h
  · simp

theorem tryProviders_wf (recOf : Provider → Outcome RecognitionResult) :
    ∀ (l : List Provider) (acc : Option String),
      (∀ p ∈ l, ∀ r, recOf p = Outcome.ok r → wellFormed r) →
      wellFormed (tryProviders recOf l acc).1
  | [], acc, _ => by simp [tryProviders, wellFormed, failureResult]
  | p :: l, acc, h => by
    cases hrec : recOf p with
    | ok r =>
      cases hrs : r.success
      · have ih := tryProviders_wf recOf l r.error
          (fun x hx => h x (by simp [hx]))
        simpa [tryProviders, hrec, hrs] using ih
      · have hwf := h p (by simp) r hrec
        simpa [tryProviders, hrec, hrs] using hwf
    | exn m =>
      have ih := tryProviders_wf recOf l (some m)
        (fun x hx => h x (by simp [hx]))
      simpa [tryProviders, hrec] using ih

/-! ### C6, C7 -/

/-- **C6 counterexample.** The Seshat adapter's `recognizeMath`, when its
initialization rejects — an internal failure — returns a stub Result with
`success = true` (tagged `fallbackProvider:'stub'`, the message attached in
`error`), not the `{success:false, error}` shape the claim states. -/
theorem provider_failure_shape_counterexample :
    (seshatRecognizeMath (Outcome.exn "Failed to initialize Seshat")
      (ApiOutcome.exn "api down") (Outcome.ok ()) (Outcome.ok none)).success =
      true ∧
    (seshatRecognizeMath (Outcome.exn "Failed to initialize Seshat")
      (ApiOutcome.exn "api down") (Outcome.ok ()) (Outcome.ok none)).error =
      some "Failed to initialize Seshat" ∧
    (seshatRecognizeMath (Outcome.exn "Failed to initialize Seshat")
      (ApiOutcome.exn "api down") (Outcome.ok ())
      (Outcome.ok none)).fallbackProvider = some "stub" :=
  ⟨rfl, rfl, rfl⟩

/-- **C6 (amended).** Every adapter call — `recognizeMath` and
`recognizeText` of both adapters — resolves to a Result (the embeddings are
total functions — nothing propagates). MathPix converts its internal
failures (missing credentials, rejected fetch, non-2xx response) to
`{success:false, confidence:0, error}`, for both kinds. Seshat instead
degrades, for both kinds: a rejected initialization, a thrown
`preprocessImage` and a thrown recognition call each yield the
`success:true` stub carrying the message in `error`; a not-ready engine
yields the API-fallback body verbatim tagged `fallbackProvider:'api'` when
the API delivers one, and the plain stub otherwise; only the
initialized-engine no-result path yields `{success:false, error}`. -/
theorem provider_failure_modes (m errJson : String) (api : ApiOutcome)
    (pre : Outcome Unit) (wasm : Outcome (Option WasmExpr))
    (wasmT : Outcome (Option WasmText)) (appId apiKey : Option String) :
    (jsStrFalsy appId = true → ∀ (conv : Outcome Unit) (f : FetchOutcome),
      mathPixRecognizeMath appId apiKey conv f =
        { success := false, confidence := 0,
          error := some "MathPix credentials are not set" } ∧
      mathPixRecognizeText appId apiKey conv f =
        { success := false, confidence := 0,
          error := some "MathPix credentials are not set" }) ∧
    (jsStrFalsy appId = false → jsStrFalsy apiKey = false →
      mathPixRecognizeMath appId apiKey (Outcome.ok ()) (FetchOutcome.exn m) =
        failureResult m ∧
      mathPixRecognizeText appId apiKey (Outcome.ok ()) (FetchOutcome.exn m) =
        failureResult m) ∧
    (jsStrFalsy appId = false → jsStrFalsy apiKey = false →
      mathPixRecognizeMath appId apiKey (Outcome.ok ())
          (FetchOutcome.httpError errJson) =
        failureResult ("MathPix API error: " ++ errJson) ∧
      mathPixRecognizeText appId apiKey (Outcome.ok ())
          (FetchOutcome.httpError errJson) =
        failureResult ("MathPix API error: " ++ errJson)) ∧
    (seshatRecognizeMath (Outcome.exn m) api pre wasm =
      { seshatMathStub with error := some m }) ∧
    (seshatRecognizeMath (Outcome.ok true) api (Outcome.exn m) wasm =
      { seshatMathStub with error := some m }) ∧
    (seshatRecognizeMath (Outcome.ok true) api (Outcome.ok ())
        (Outcome.exn m) = { seshatMathStub with error := some m }) ∧
    (∀ r, seshatRecognizeMath (Outcome.ok false) (ApiOutcome.ok r) pre wasm =
      { r with fallbackProvider := some "api" }) ∧
    ((∀ r, api ≠ ApiOutcome.ok r) →
      seshatRecognizeMath (Outcome.ok false) api pre wasm = seshatMathStub) ∧
    (seshatRecognizeMath (Outcome.ok true) api (Outcome.ok ())
        (Outcome.ok none) = failureResult "Failed to recognize expression") ∧
    (seshatRecognizeText (Outcome.exn m) api pre wasmT =
      { seshatTextStub with error := some m }) ∧
    (seshatRecognizeText (Outcome.ok true) api (Outcome.exn m) wasmT =
      { seshatTextStub with error := some m }) ∧
    (seshatRecognizeText (Outcome.ok true) api (Outcome.ok ())
        (Outcome.exn m) = { seshatTextStub with error := some m }) ∧
    (∀ r, seshatRecognizeText (Outcome.ok false) (ApiOutcome.ok r) pre wasmT =
      { r with fallbackProvider := some "api" }) ∧
    ((∀ r, api ≠ ApiOutcome.ok r) →
      seshatRecognizeText (Outcome.ok false) api pre wasmT = seshatTextStub) ∧
    (seshatRecognizeText (Outcome.ok true) api (Outcome.ok ())
        (Outcome.ok none) = failureResult "Failed to recognize text") := by
  refine ⟨?_, ?_, ?_, ?_, ?_, ?_, ?_, ?_, ?_, ?_, ?_, ?_, ?_, ?_, ?_⟩
  · intro h conv f
    exact ⟨by simp [mathPixRecognizeMath, h], by simp [mathPixRecognizeText, h]⟩
  · intro h1 h2
    exact ⟨by simp [mathPixRecognizeMath, h1, h2, failureResult],
           by simp [mathPixRecognizeText, h1, h2, failureResult]⟩
  · intro h1 h2
    exact ⟨by simp [mathPixRecognizeMath, h1, h2, failureResult],
           by simp [mathPixRecognizeText, h1, h2, failureResult]⟩
  · simp [seshatRecognizeMath]
  · simp [seshatRecognizeMath]
  · simp [seshatRecognizeMath]
  · intro r; simp [seshatRecognizeMath]
  · intro hapi
    cases api with
    | ok r => exact absurd rfl (hapi r)
    | exn m2 => simp [seshatRecognizeMath]
    | httpError n => simp [seshatRecognizeMath]
  · simp [seshatRecognizeMath, failureResult]
  · simp [seshatRecognizeText]
  · simp [seshatRecognizeText]
  · simp [seshatRecognizeText]
  · intro r; simp [seshatRecognizeText]
  · intro hapi
    cases api with
    | ok r => exact absurd rfl (hapi r)
    | exn m2 => simp [seshatRecognizeText]
    | httpError n => simp [seshatRecognizeText]
  · simp [seshatRecognizeText, failureResult]

/-- Witness for C6 (amended): each failure mode at concrete inputs, for
both recognition kinds. -/
theorem provider_failure_modes_witness :
    (mathPixRecognizeMath none (some "k") (Outcome.ok ())
        (FetchOutcome.ok none) =
      { success := false, confidence := 0,
        error := some "MathPix credentials are not set" } ∧
     mathPixRecognizeText none (some "k") (Outcome.ok ())
        (FetchOutcome.ok none) =
      { success := false, confidence := 0,
        error := some "MathPix credentials are not set" }) ∧
    (mathPixRecognizeMath (some "id") (some "key") (Outcome.ok ())
        (FetchOutcome.exn "network down") = failureResult "network down" ∧
     mathPixRecognizeText (some "id") (some "key") (Outcome.ok ())
        (FetchOutcome.exn "network down") = failureResult "network down") ∧
    (mathPixRecognizeMath (some "id") (some "key") (Outcome.ok ())
        (FetchOutcome.httpError "401") =
      failureResult ("MathPix API error: " ++ "401") ∧
     mathPixRecognizeText (some "id") (some "key") (Outcome.ok ())
        (FetchOutcome.httpError "401") =
      failureResult ("MathPix API error: " ++ "401")) ∧
    seshatRecognizeMath (Outcome.ok true) (ApiOutcome.httpError 500)
        (Outcome.ok ()) (Outcome.exn "recognizeExpression crashed") =
      { seshatMathStub with error := some "recognizeExpression crashed" } ∧
    seshatRecognizeMath (Outcome.ok false) (ApiOutcome.ok okMathResult)
        (Outcome.ok ()) (Outcome.ok none) =
      { okMathResult with fallbackProvider := some "api" } ∧
    seshatRecognizeMath (Outcome.ok false) (ApiOutcome.httpError 500)
        (Outcome.ok ()) (Outcome.ok none) = seshatMathStub ∧
    seshatRecognizeMath (Outcome.ok true) (ApiOutcome.httpError 500)
        (Outcome.ok ()) (Outcome.ok none) =
      failureResult "Failed to recognize expression" ∧
    seshatRecognizeText (Outcome.ok true) (ApiOutcome.httpError 500)
        (Outcome.ok ()) (Outcome.exn "recognizeText crashed") =
      { seshatTextStub with error := some "recognizeText crashed" } ∧
    seshatRecognizeText (Outcome.ok false) (ApiOutcome.ok okMathResult)
        (Outcome.ok ()) (Outcome.ok none) =
      { okMathResult with fallbackProvider := some "api" } ∧
    seshatRecognizeText (Outcome.ok false) (ApiOutcome.httpError 500)
        (Outcome.ok ()) (Outcome.ok none) = seshatTextStub ∧
    seshatRecognizeText (Outcome.ok true) (ApiOutcome.httpError 500)
        (Outcome.ok ()) (Outcome.ok none) =
      failureResult "Failed to recognize text" :=
  ⟨(provider_failure_modes "network down" "401" (ApiOutcome.httpError 500)
      (Outcome.ok ()) (Outcome.ok none) (Outcome.ok none) none (some "k")).1
      rfl (Outcome.ok ()) (FetchOutcome.ok none),
   (provider_failure_modes "network down" "401" (ApiOutcome.httpError 500)
      (Outcome.ok ()) (Outcome.ok none) (Outcome.ok none) (some "id")
      (some "key")).2.1 rfl rfl,
   (provider_failure_modes "network down" "401" (ApiOutcome.httpError 500)
      (Outcome.ok ()) (Outcome.ok none) (Outcome.ok none) (some "id")
      (some "key")).2.2.1 rfl rfl,
   (provider_failure_modes "recognizeExpression crashed" "401"
      (ApiOutcome.httpError 500) (Outcome.ok ()) (Outcome.ok none)
      (Outcome.ok none) (some "id") (some "key")).2.2.2.2.2.1,
   (provider_failure_modes "network down" "401" (ApiOutcome.httpError 500)
      (Outcome.ok ()) (Outcome.ok none) (Outcome.ok none) (some "id")
      (some "key")).2.2.2.2.2.2.1 okMathResult,
   (provider_failure_modes "network down" "401" (ApiOutcome.httpError 500)
      (Outcome.ok ()) (Outcome.ok none) (Outcome.ok none) (some "id")
      (some "key")).2.2.2.2.2.2.2.1 (fun _r h => ApiOutcome.noConfusion h),
   (provider_failure_modes "network down" "401" (ApiOutcome.httpError 500)
      (Outcome.ok ()) (Outcome.ok none) (Outcome.ok none) (some "id")
      (some "key")).2.2.2.2.2.2.2.2.1,
   (provider_failure_modes "recognizeText crashed" "401"
      (ApiOutcome.httpError 500) (Outcome.ok ()) (Outcome.ok none)
      (Outcome.ok none) (some "id")
      (some "key")).2.2.2.2.2.2.2.2.2.2.2.1,
   (provider_failure_modes "network down" "401" (ApiOutcome.httpError 500)
      (Outcome.ok ()) (Outcome.ok none) (Outcome.ok none) (some "id")
      (some "key")).2.2.2.2.2.2.2.2.2.2.2.2.1 okMathResult,
   (provider_failure_modes "network down" "401" (ApiOutcome.httpError 500)
      (Outcome.ok ()) (Outcome.ok none) (Outcome.ok none) (some "id")
      (some "key")).2.2.2.2.2.2.2.2.2.2.2.2.2.1
      (fun _r h => ApiOutcome.noConfusion h),
   (provider_failure_modes "network down" "401" (ApiOutcome.httpError 500)
      (Outcome.ok ()) (Outcome.ok none) (Outcome.ok none) (some "id")
      (some "key")).2.2.2.2.2.2.2.2.2.2.2.2.2.2⟩

/-- **C7 counterexample.** The Seshat adapter's API fallback returns the
backend's body verbatim (plus `fallbackProvider:'api'`): with a body
`{success:false, confidence:0}` carrying no error, the adapter returns a
Result with `success = false` and no `error`, violating the claimed
invariant. -/
theorem result_invariant_counterexample :
    (seshatRecognizeMath (Outcome.ok false)
      (ApiOutcome.ok { success := false, confidence := 0 })
      (Outcome.ok ()) (Outcome.ok none)).success = false ∧
    (seshatRecognizeMath (Outcome.ok false)
      (ApiOutcome.ok { success := false, confidence := 0 })
      (Outcome.ok ()) (Outcome.ok none)).error = none :=
  ⟨rfl, rfl⟩

/-- **C7 (amended).** The invariant — `success=true` carries at least one of
`latex`/`text`, `success=false` carries `error` — holds of every Result the
orchestration layer constructs itself, and is preserved by every pass
through: the orchestrator's Result is well-formed whenever every provider
Result is; the orchestrator's own failure Results always carry `error` and
`confidence 0`; the Seshat adapter's Result is well-formed whenever any
API-fallback body it passes through is; and MathPix Results are
unconditionally well-formed. -/
theorem results_well_formed :
    (∀ (recOf : Provider → Outcome RecognitionResult) (s : List Provider)
        (pid : Option String),
      (∀ p ∈ s, ∀ r, recOf p = Outcome.ok r → wellFormed r) →
      wellFormed (recognizeWith recOf s pid).1) ∧
    (∀ m, (failureResult m).confidence = 0 ∧ (failureResult m).error = some m) ∧
    (∀ (init : Outcome Bool) (api : ApiOutcome) (pre : Outcome Unit)
        (wasm : Outcome (Option WasmExpr)),
      (∀ r, api = ApiOutcome.ok r → wellFormed r) →
      wellFormed (seshatRecognizeMath init api pre wasm)) ∧
    (∀ (init : Outcome Bool) (api : ApiOutcome) (pre : Outcome Unit)
        (wasm : Outcome (Option WasmText)),
      (∀ r, api = ApiOutcome.ok r → wellFormed r) →
      wellFormed (seshatRecognizeText init api pre wasm)) ∧
    (∀ (appId apiKey : Option String) (conv : Outcome Unit)
        (fetch : FetchOutcome),
      wellFormed (mathPixRecognizeMath appId apiKey conv fetch)) ∧
    (∀ (appId apiKey : Option String) (conv : Outcome Unit)
        (fetch : FetchOutcome),
      wellFormed (mathPixRecognizeText appId apiKey conv fetch)) := by
  refine ⟨?_, ?_, ?_, ?_, ?_, ?_⟩
  · intro recOf s pid h
    cases pid with
    | some pid =>
      cases hg : getProvider s pid with
      | none => simp [recognizeWith, hg, wellFormed, failureResult]
      | some p =>
        have hmem : p ∈ s := List.mem_of_find?_eq_some hg
        cases hav : p.availability with
        | exn m => simp [recognizeWith, hg, hav, wellFormed, failureResult]
        | ok b =>
          cases b
          · simp [recognizeWith, hg, hav, wellFormed, failureResult]
          · cases hrec : recOf p with
            | ok r =>
              have := h p hmem r hrec
              simpa [recognizeWith, hg, hav, hrec] using this
            | exn m =>
              simp [recognizeWith, hg, hav, hrec, wellFormed, failureResult]
    | none =>
      cases hE : (s.filter isAvailableOk).isEmpty
      · have := tryProviders_wf recOf (s.filter isAvailableOk) none
          (fun p hp => h p (List.mem_of_mem_filter hp))
        simpa [recognizeWith, hE] using this
      · simp [recognizeWith, hE, wellFormed, failureResult]
  · intro m; exact ⟨rfl, rfl⟩
  · intro init api pre wasm hapi
    cases init with
    | exn m => simp [seshatRecognizeMath, wellFormed, seshatMathStub]
    | ok ready =>
      cases ready
      · cases api with
        | ok r =>
          have := hapi r rfl
          simpa [seshatRecognizeMath, wellFormed] using this
        | exn m2 => simp [seshatRecognizeMath, wellFormed, seshatMathStub]
        | httpError n => simp [seshatRecognizeMath, wellFormed, seshatMathStub]
      · cases pre with
        | exn m2 => simp [seshatRecognizeMath, wellFormed, seshatMathStub]
        | ok u =>
          cases wasm with
          | exn m2 => simp [seshatRecognizeMath, wellFormed, seshatMathStub]
          | ok ow =>
            cases ow with
            | none => simp [seshatRecognizeMath, wellFormed]
            | some w =>
              by_cases hl : jsStrFalsy w.latex = true
              · simp [seshatRecognizeMath, hl, wellFormed]
              · have hne := jsStrFalsy_false_ne_none w.latex
                  (by simpa using hl)
                simp [seshatRecognizeMath, hl, wellFormed, hne]
  · intro init api pre wasm hapi
    cases init with
    | exn m => simp [seshatRecognizeText, wellFormed, seshatTextStub]
    | ok ready =>
      cases ready
      · cases api with
        | ok r =>
          have := hapi r rfl
          simpa [seshatRecognizeText, wellFormed] using this
        | exn m2 => simp [seshatRecognizeText, wellFormed, seshatTextStub]
        | httpError n => simp [seshatRecognizeText, wellFormed, seshatTextStub]
      · cases pre with
        | exn m2 => simp [seshatRecognizeText, wellFormed, seshatTextStub]
        | ok u =>
          cases wasm with
          | exn m2 => simp [seshatRecognizeText, wellFormed, seshatTextStub]
          | ok ow =>
            cases ow with
            | none => simp [seshatRecognizeText, wellFormed]
            | some w =>
              by_cases hl : jsStrFalsy w.text = true
              · simp [seshatRecognizeText, hl, wellFormed]
              · have hne := jsStrFalsy_false_ne_none w.text
                  (by simpa using hl)
                simp [seshatRecognizeText, hl, wellFormed, hne]
  · intro appId apiKey conv fetch
    by_cases hc : (jsStrFalsy appId || jsStrFalsy apiKey) = true
    · simp [mathPixRecognizeMath, hc, wellFormed]
    · cases conv with
      | exn m => simp [mathPixRecognizeMath, hc, wellFormed]
      | ok u =>
        cases fetch with
        | exn m => simp [mathPixRecognizeMath, hc, wellFormed]
        | httpError e => simp [mathPixRecognizeMath, hc, wellFormed]
        | ok body =>
          cases body with
          | none => simp [mathPixRecognizeMath, hc, wellFormed]
          | some res =>
            by_cases hl : jsStrFalsy res.latex = true
            · by_cases ht : jsStrFalsy res.text = true
              · simp [mathPixRecognizeMath, hc, hl, ht, wellFormed]
              · have hne := jsStrFalsy_false_ne_none res.text
                  (by simpa using ht)
                simp [mathPixRecognizeMath, hc, hl, ht, wellFormed, hne]
            · have hne := jsStrFalsy_false_ne_none res.latex
                (by simpa using hl)
              by_cases ht : jsStrFalsy res.text = true <;>
                simp [mathPixRecognizeMath, hc, hl, ht, wellFormed, hne]
  · intro appId apiKey conv fetch
    by_cases hc : (jsStrFalsy appId || jsStrFalsy apiKey) = true
    · simp [mathPixRecognizeText, hc, wellFormed]
    · cases conv with
      | exn m => simp [mathPixRecognizeText, hc, wellFormed]
      | ok u =>
        cases fetch with
        | exn m => simp [mathPixRecognizeText, hc, wellFormed]
        | httpError e => simp [mathPixRecognizeText, hc, wellFormed]
        | ok body =>
          cases body with
          | none => simp [mathPixRecognizeText, hc, wellFormed]
          | some res =>
            by_cases ht : jsStrFalsy res.text = true
            · simp [mathPixRecognizeText, hc, ht, wellFormed]
            · have hne := jsStrFalsy_false_ne_none res.text
                (by simpa using ht)
              simp [mathPixRecognizeText, hc, ht, wellFormed, hne]

/-- Witness for C7 (amended): well-formedness at concrete inputs for the
orchestrator, the Seshat adapter and the MathPix adapter. -/
theorem results_well_formed_witness :
    wellFormed (recognizeWith (fun p => p.mathResult witImg)
      [provFailX, provOkA] none).1 ∧
    wellFormed (seshatRecognizeMath (Outcome.exn "boom")
      (ApiOutcome.httpError 500) (Outcome.ok ()) (Outcome.ok none)) ∧
    wellFormed (mathPixRecognizeMath (some "id") (some "key")
      (Outcome.ok ()) (FetchOutcome.ok none)) := by
  refine ⟨results_well_formed.1 (fun p => p.mathResult witImg)
      [provFailX, provOkA] none ?_,
    results_well_formed.2.2.1 (Outcome.exn "boom") (ApiOutcome.httpError 500)
      (Outcome.ok ()) (Outcome.ok none) ?_,
    results_well_formed.2.2.2.2.1 (some "id") (some "key") (Outcome.ok ())
      (FetchOutcome.ok none)⟩
  · intro p hp r hr
    rcases List.mem_cons.mp hp with h | h
    · subst h
      have hr' : Outcome.ok (failureResult "x") = Outcome.ok r := hr
      injection hr' with h2
      rw [← h2]
      decide
    · have h1 : p = provOkA := by simpa using h
      subst h1
      have hr' : Outcome.ok okMathResult = Outcome.ok r := hr
      injection hr' with h2
      rw [← h2]
      decide
  · intro _r h
    exact ApiOutcome.noConfusion h

end Recognition
